import Mathlib

/-!
Verification of the channel-selection core of
`filter_pruning/kmeans_pruning.py` (`KMeansFilterPruning.run_pruning_for_conv2d_layer`).

Shallow embedding notes:

* The weight tensor enters the algorithm only through (a) its shape, used in the
  4-tuple unpacking on line 30 of the source, and (b) the fuzzed, flattened
  filter matrix handed to `sklearn`'s k-means.  The clustering itself
  (`cluster.KMeans(...).fit` followed by `metrics.pairwise_distances_argmin`,
  source lines 34-46) is external library code; its outcome is represented by
  the explicit argument `closest`, the list of row indices closest to the
  cluster centers (one entry per cluster center, each entry in
  `[0, nb_channels)` by the semantics of `pairwise_distances_argmin`).
* `sklearn`'s `KMeans.fit` validates its parameters before any clustering
  iteration runs: it rejects `n_clusters = 0` (a non-positive cluster count)
  and `n_samples < n_clusters`.  This validation is the `kmeansFit` error
  branch below.
* CPython iterates a set of small non-negative machine integers (hash(i) = i)
  in ascending order, so `list(set(...))` on the channel-index sets of the
  source (lines 48-51) is modelled as the ascending listing of the set.
* `np.random.shuffle(channel_indices_to_keep)` (line 62) is modelled by an
  explicit function `shuffled`; a fixed numpy seed makes it a fixed function.
  Theorems that depend on it being a shuffle carry the permutation hypothesis.
* The loop `for i in range(diff): ...append(channel_indices_to_keep[i])`
  (lines 63-64) raises `IndexError` when `diff` exceeds the keep list's
  length; this is the `keepIndex` error branch.
* `nb_of_clusters` is the first component returned by
  `_calculate_number_of_channels_to_keep` (source line 33).  That helper lives
  in `base_filter_pruning.py`, which is not part of the analysed sources; the
  value is therefore threaded through as an explicit parameter.
-/

namespace KMeansPruning

/-- The exceptional exits of `run_pruning_for_conv2d_layer`:
`shapeUnpack` is the `ValueError` from unpacking a non-4-D shape (line 30),
`kmeansFit` the `ValueError` raised by `KMeans.fit` parameter validation
(line 41), `keepIndex` the `IndexError` from indexing past the keep list
(line 64), and `countMismatch` the explicit `ValueError` of lines 66-69. -/
inductive PruneError where
  | shapeUnpack
  | kmeansFit
  | keepIndex
  | countMismatch
deriving DecidableEq, Repr

/-- A successful run: the channel list submitted to the surgeon job, the
diagnostic messages printed along the way, and the returned integer. -/
structure PruneOutcome where
  channels : List Nat
  logs : List String
  ret : Nat
deriving DecidableEq, Repr

/-- `channel_indices_to_keep = list(set(closest_point_to_cluster_center_indices))`
(source lines 49, 51): the deduplicated representative indices, listed in the
ascending order in which CPython iterates a set of small ints. -/
def keepList (closest : List Nat) : List Nat :=
  List.insertionSort (· ≤ ·) closest.dedup

/-- `channel_indices_to_prune = list(set(np.arange(n)).difference(keep))`
(source lines 48, 50): the ascending list of channel indices that are not
representatives. -/
def pruneInit (nb_channels : Nat) (closest : List Nat) : List Nat :=
  (List.range nb_channels).filter (fun i => !(decide (i ∈ closest)))

/-- The two messages printed on the over-full branch (source lines 55-56). -/
def msg_too_many : List String :=
  ["Number of selected channels for pruning is greater then number of clusters",
   "Discarding a few pruneable channels"]

/-- The two messages printed on the shortfall branch (source lines 59, 61). -/
def msg_too_few (diff : Nat) : List String :=
  ["Number of selected channels for pruning is less than the number of clusters",
   "Randomly adding " ++ toString diff ++ " channels for pruning"]

/-- Count reconciliation (source lines 54-64): truncate an over-full prune
list to its first `nb_of_clusters` entries, or fill a shortfall from the
shuffled keep list, reading `keep[0], ..., keep[diff-1]` (an `IndexError`
when the keep list is shorter than `diff`). -/
def reconcile (nb_of_clusters : Nat) (prune keep : List Nat)
    (shuffled : List Nat → List Nat) :
    Except PruneError (List Nat × List String) :=
  if nb_of_clusters < prune.length then
    Except.ok (prune.take nb_of_clusters, msg_too_many)
  else if prune.length < nb_of_clusters then
    if (shuffled keep).length < nb_of_clusters - prune.length then
      Except.error PruneError.keepIndex
    else
      Except.ok (prune ++ (shuffled keep).take (nb_of_clusters - prune.length),
        msg_too_few (nb_of_clusters - prune.length))
  else
    Except.ok (prune, [])

/-- The final guard (source lines 66-69) followed by the job submission and
return (lines 72-74): fail when the reconciled list's length differs from
`nb_of_clusters`, otherwise return the list, the printed messages and the
integer `len(channel_indices_to_prune)`. -/
def final_check (nb_of_clusters : Nat) (pr : List Nat × List String) :
    Except PruneError PruneOutcome :=
  if pr.1.length = nb_of_clusters then
    Except.ok ⟨pr.1, pr.2, pr.1.length⟩
  else Except.error PruneError.countMismatch

/-- The index pipeline of `run_pruning_for_conv2d_layer` (source lines
27-74): unpack the 4-D shape, run the `KMeans.fit` parameter validation,
split the channel universe into keep/prune around the clustering outcome
`closest`, reconcile the count, and apply the final guard. -/
def run_pruning_for_conv2d_layer (shape : List Nat) (nb_of_clusters : Nat)
    (closest : List Nat) (shuffled : List Nat → List Nat) :
    Except PruneError PruneOutcome :=
  match shape with
  | [_height, _width, _input_channels, nb_channels] =>
    if nb_of_clusters = 0 ∨ nb_channels < nb_of_clusters then
      Except.error PruneError.kmeansFit
    else
      match reconcile nb_of_clusters (pruneInit nb_channels closest)
          (keepList closest) shuffled with
      | Except.ok pr => final_check nb_of_clusters pr
      | Except.error e => Except.error e
  | _ => Except.error PruneError.shapeUnpack

/-- `precondition_violated shape K` holds exactly on the caller-contract
violations named by the spec: a weight tensor that is not 4-dimensional, or a
target count `K` out of range (`K > output_channels`; negative counts are
unrepresentable in this embedding). -/
def precondition_violated (shape : List Nat) (nb_of_clusters : Nat) : Bool :=
  match shape with
  | [_, _, _, nb_channels] => decide (nb_channels < nb_of_clusters)
  | _ => true

/-- A layer's weight tensor: its shape together with its flattened
(C-order) data. -/
structure Tensor where
  shape : List Nat
  data : List Rat
deriving DecidableEq, Repr

/-- One deferred job handed to the `kerassurgeon.Surgeon`
(`surgeon.add_job("delete_channels", layer, channels=...)`, source line 72). -/
structure SurgeonJob where
  jobName : String
  channels : List Nat
deriving DecidableEq, Repr

/-- The mutable state visible to one call: the layer's weights and the
surgeon's accumulated job list. -/
structure PruneState where
  layerWeights : Tensor
  jobs : List SurgeonJob
deriving DecidableEq, Repr

/-- `layer_weight_mtx.transpose(3, 0, 1, 2).reshape(nb_channels, -1)`
(source line 38): row `c` collects, in C order, the elements
`layer_weight_mtx[hh, ww, icc, c]`, i.e. data offsets `j * nb_channels + c`.
The result is a fresh matrix value; the tensor itself is untouched. -/
def flattenedFilterMatrix (t : Tensor) : List (List Rat) :=
  match t.shape with
  | [h, w, ic, nb_channels] =>
    (List.range nb_channels).map (fun c =>
      (List.range (h * w * ic)).map (fun j => t.data.getD (j * nb_channels + c) 0))
  | _ => []

/-- Modelled from the spec: `_apply_fuzz` is defined in
`base_filter_pruning.py`, which is not among the analysed sources.  Per the
spec it applies a small random perturbation to every element of the flattened
matrix and the perturbation is not written back to the real weights, so it is
modelled as a pure elementwise addition of a noise field on the matrix
value. -/
def apply_fuzz (noise : Nat → Nat → Rat) (m : List (List Rat)) : List (List Rat) :=
  m.mapIdx (fun r row => row.mapIdx (fun c x => x + noise r c))

/-- The channel list the call hands to `surgeon.add_job` — one
`delete_channels` job on success, nothing when the call raises.
`clusterClosest` abstracts `KMeans.fit` + `pairwise_distances_argmin` on the
fuzzed matrix; `noise` and `shuffled` are the draws of the numpy random
source. -/
def submitted_jobs (t : Tensor) (nb_of_clusters : Nat)
    (noise : Nat → Nat → Rat) (clusterClosest : List (List Rat) → Nat → List Nat)
    (shuffled : List Nat → List Nat) : List SurgeonJob :=
  match run_pruning_for_conv2d_layer t.shape nb_of_clusters
      (clusterClosest (apply_fuzz noise (flattenedFilterMatrix t)) nb_of_clusters)
      shuffled with
  | Except.ok o => [⟨"delete_channels", o.channels⟩]
  | Except.error _ => []

/-- The full call as a state transformer: `layer.get_weights()[0]` reads the
weights (Keras hands back a copy of the layer's variables), the flattened
matrix is fuzzed and clustered, the index pipeline runs, and on success the
single `delete_channels` job is appended to the surgeon's job list while the
returned integer is passed back.  On an exception the state is left as it
was. -/
def run_pruning_stateful (s : PruneState) (nb_of_clusters : Nat)
    (noise : Nat → Nat → Rat) (clusterClosest : List (List Rat) → Nat → List Nat)
    (shuffled : List Nat → List Nat) : Except PruneError Nat × PruneState :=
  let layer_weight_mtx := s.layerWeights
  let reshaped := flattenedFilterMatrix layer_weight_mtx
  let fuzzed := apply_fuzz noise reshaped
  let closest := clusterClosest fuzzed nb_of_clusters
  match run_pruning_for_conv2d_layer layer_weight_mtx.shape nb_of_clusters
      closest shuffled with
  | Except.ok o =>
    (Except.ok o.ret, { s with jobs := s.jobs ++ [⟨"delete_channels", o.channels⟩] })
  | Except.error e => (Except.error e, s)

/-! ### Helper lemmas -/

theorem pruneInit_nodup (n : Nat) (closest : List Nat) : (pruneInit n closest).Nodup :=
  (List.nodup_range n).filter _

theorem mem_pruneInit {n : Nat} {closest : List Nat} {i : Nat} :
    i ∈ pruneInit n closest ↔ i < n ∧ i ∉ closest := by
  simp [pruneInit, List.mem_filter]

theorem pruneInit_length_le (n : Nat) (closest : List Nat) :
    (pruneInit n closest).length ≤ n := by
  have h := List.length_filter_le (fun i => !(decide (i ∈ closest))) (List.range n)
  simpa [pruneInit] using h

theorem keepList_perm (closest : List Nat) : (keepList closest).Perm closest.dedup :=
  List.perm_insertionSort _ _

theorem mem_keepList {closest : List Nat} {i : Nat} :
    i ∈ keepList closest ↔ i ∈ closest :=
  ((keepList_perm closest).mem_iff).trans (List.mem_dedup)

theorem keepList_nodup (closest : List Nat) : (keepList closest).Nodup :=
  ((keepList_perm closest).nodup_iff).mpr (List.nodup_dedup closest)

/-- The keep list and the initial prune list together cover the channel
universe: their lengths sum to at least `n`. -/
theorem le_pruneInit_length_add_keepList_length (n : Nat) (closest : List Nat) :
    n ≤ (pruneInit n closest).length + (keepList closest).length := by
  have hsplit : (List.range n).length =
      ((List.range n).filter (fun i => decide (i ∈ closest))).length +
        (pruneInit n closest).length :=
    List.length_eq_length_filter_add _
  have hnd : ((List.range n).filter (fun i => decide (i ∈ closest))).Nodup :=
    (List.nodup_range n).filter _
  have hsubset : ((List.range n).filter (fun i => decide (i ∈ closest))) ⊆
      keepList closest := by
    intro x hx
    rw [mem_keepList]
    simpa using (List.mem_filter.mp hx).2
  have hle : ((List.range n).filter (fun i => decide (i ∈ closest))).length ≤
      (keepList closest).length :=
    (List.subperm_of_subset hnd hsubset).length_le
  have hlen : (List.range n).length = n := List.length_range n
  omega

theorem reconcile_ok_elim {K : Nat} {prune keep : List Nat}
    {sh : List Nat → List Nat} {pr : List Nat × List String}
    (h : reconcile K prune keep sh = Except.ok pr) :
    (K < prune.length ∧ pr = (prune.take K, msg_too_many)) ∨
    (prune.length < K ∧ K - prune.length ≤ (sh keep).length ∧
      pr = (prune ++ (sh keep).take (K - prune.length),
        msg_too_few (K - prune.length))) ∨
    (prune.length = K ∧ pr = (prune, [])) := by
  unfold reconcile at h
  split at h
  · cases h
    exact Or.inl ⟨by assumption, rfl⟩
  · split at h
    · split at h
      · exact Except.noConfusion h
      · cases h
        refine Or.inr (Or.inl ⟨by assumption, by omega, rfl⟩)
    · cases h
      exact Or.inr (Or.inr ⟨by omega, rfl⟩)

theorem reconcile_error_elim {K : Nat} {prune keep : List Nat}
    {sh : List Nat → List Nat} {e : PruneError}
    (h : reconcile K prune keep sh = Except.error e) : e = PruneError.keepIndex := by
  unfold reconcile at h
  split at h
  · exact Except.noConfusion h
  · split at h
    · split at h
      · cases h
        rfl
      · exact Except.noConfusion h
    · exact Except.noConfusion h

theorem reconcile_ok_length {K : Nat} {prune keep : List Nat}
    {sh : List Nat → List Nat} {pr : List Nat × List String}
    (h : reconcile K prune keep sh = Except.ok pr) : pr.1.length = K := by
  rcases reconcile_ok_elim h with ⟨hgt, rfl⟩ | ⟨hlt, hle, rfl⟩ | ⟨heq, rfl⟩
  · simp [List.length_take]
    omega
  · simp [List.length_take]
    omega
  · simpa using heq

theorem final_check_ok_elim {K : Nat} {pr : List Nat × List String} {o : PruneOutcome}
    (h : final_check K pr = Except.ok o) :
    o.channels = pr.1 ∧ o.logs = pr.2 ∧ o.ret = pr.1.length ∧ pr.1.length = K := by
  unfold final_check at h
  split at h
  · cases h
    exact ⟨rfl, rfl, rfl, by assumption⟩
  · exact Except.noConfusion h

theorem run_ok_elim {hh ww ic n K : Nat} {closest : List Nat}
    {sh : List Nat → List Nat} {o : PruneOutcome}
    (h : run_pruning_for_conv2d_layer [hh, ww, ic, n] K closest sh = Except.ok o) :
    K ≠ 0 ∧ K ≤ n ∧
      reconcile K (pruneInit n closest) (keepList closest) sh =
        Except.ok (o.channels, o.logs) ∧
      o.channels.length = K ∧ o.ret = o.channels.length := by
  simp only [run_pruning_for_conv2d_layer] at h
  by_cases hguard : K = 0 ∨ n < K
  · rw [if_pos hguard] at h
    exact Except.noConfusion h
  · rw [if_neg hguard] at h
    push_neg at hguard
    rcases hpr : reconcile K (pruneInit n closest) (keepList closest) sh with e | pr
    · rw [hpr] at h
      exact Except.noConfusion h
    · rw [hpr] at h
      obtain ⟨hch, hlg, hret, hlen⟩ := final_check_ok_elim h
      refine ⟨hguard.1, hguard.2, ?_, ?_, ?_⟩
      · cases pr
        rw [hch, hlg]
      · rw [hch]
        exact hlen
      · rw [hret, hch]

/-! ### Claim theorems -/

/-- Claim C1: for every valid call with a 4-D weight tensor having `n` output
channels and an internally derived target count `K`, the channel list
submitted for pruning has exactly `K` elements, all distinct, and each
element lies in `[0, n)`.  The hypotheses record what the external
collaborators guarantee: `pairwise_distances_argmin` returns row indices of
the flattened matrix (all below `n`), and `np.random.shuffle` permutes the
keep list. -/
theorem kmeans_prune_list_exact_distinct_inrange
    (hh ww ic n K : Nat) (closest : List Nat) (shuffled : List Nat → List Nat)
    (hclosest : ∀ i ∈ closest, i < n)
    (hperm : (shuffled (keepList closest)).Perm (keepList closest))
    (o : PruneOutcome)
    (hrun : run_pruning_for_conv2d_layer [hh, ww, ic, n] K closest shuffled =
      Except.ok o) :
    o.channels.length = K ∧ o.channels.Nodup ∧ ∀ i ∈ o.channels, i < n := by
  obtain ⟨hK0, hKn, hrec, hlen, hret⟩ := run_ok_elim hrun
  have hshnd : (shuffled (keepList closest)).Nodup :=
    hperm.nodup_iff.mpr (keepList_nodup closest)
  refine ⟨hlen, ?_, ?_⟩
  · rcases reconcile_ok_elim hrec with ⟨hgt, hpr⟩ | ⟨hlt, hle, hpr⟩ | ⟨heq, hpr⟩
    · have hch : o.channels = (pruneInit n closest).take K :=
        congrArg Prod.fst hpr
      rw [hch]
      exact (List.take_sublist _ _).nodup (pruneInit_nodup n closest)
    · have hch : o.channels =
          pruneInit n closest ++
            (shuffled (keepList closest)).take (K - (pruneInit n closest).length) :=
        congrArg Prod.fst hpr
      rw [hch]
      refine (pruneInit_nodup n closest).append
        ((List.take_sublist _ _).nodup hshnd) ?_
      intro a ha hb
      have hnot : a ∉ closest := (mem_pruneInit.mp ha).2
      have hmem : a ∈ shuffled (keepList closest) :=
        (List.take_sublist _ _).subset hb
      exact hnot (mem_keepList.mp (hperm.mem_iff.mp hmem))
    · have hch : o.channels = pruneInit n closest := congrArg Prod.fst hpr
      rw [hch]
      exact pruneInit_nodup n closest
  · intro i hi
    rcases reconcile_ok_elim hrec with ⟨hgt, hpr⟩ | ⟨hlt, hle, hpr⟩ | ⟨heq, hpr⟩
    · have hch : o.channels = (pruneInit n closest).take K :=
        congrArg Prod.fst hpr
      rw [hch] at hi
      exact (mem_pruneInit.mp ((List.take_sublist _ _).subset hi)).1
    · have hch : o.channels =
          pruneInit n closest ++
            (shuffled (keepList closest)).take (K - (pruneInit n closest).length) :=
        congrArg Prod.fst hpr
      rw [hch] at hi
      rcases List.mem_append.mp hi with hi | hi
      · exact (mem_pruneInit.mp hi).1
      · have hmem : i ∈ shuffled (keepList closest) :=
          (List.take_sublist _ _).subset hi
        exact hclosest i (mem_keepList.mp (hperm.mem_iff.mp hmem))
    · have hch : o.channels = pruneInit n closest := congrArg Prod.fst hpr
      rw [hch] at hi
      exact (mem_pruneInit.mp hi).1

/-- Witness for C1: a (1,1,1,3) tensor, target 2, representative channel 0;
the submitted list is [1, 2]: two distinct indices below 3. -/
theorem kmeans_prune_list_exact_distinct_inrange_witness :
    (PruneOutcome.mk [1, 2] [] 2).channels.length = 2 ∧
      (PruneOutcome.mk [1, 2] [] 2).channels.Nodup ∧
      ∀ i ∈ (PruneOutcome.mk [1, 2] [] 2).channels, i < 3 :=
  kmeans_prune_list_exact_distinct_inrange 1 1 1 3 2 [0] id (by decide)
    (List.Perm.refl _) (PruneOutcome.mk [1, 2] [] 2) rfl

/-- Claim C2: a shape/precondition violation — a weight tensor that is not
4-dimensional, or a target count larger than the number of output channels —
makes the call fail before clustering begins: it returns an error, and the
result does not depend on the clustering outcome or on the random shuffle. -/
theorem kmeans_precondition_violation_rejected
    (shape : List Nat) (K : Nat) (closest closest' : List Nat)
    (shuffled shuffled' : List Nat → List Nat)
    (hviol : precondition_violated shape K = true) :
    (∃ e, run_pruning_for_conv2d_layer shape K closest shuffled =
      Except.error e) ∧
    run_pruning_for_conv2d_layer shape K closest shuffled =
      run_pruning_for_conv2d_layer shape K closest' shuffled' := by
  rcases shape with _ | ⟨a, _ | ⟨b, _ | ⟨c, _ | ⟨d, _ | ⟨e, rest⟩⟩⟩⟩⟩
  · exact ⟨⟨PruneError.shapeUnpack, rfl⟩, rfl⟩
  · exact ⟨⟨PruneError.shapeUnpack, rfl⟩, rfl⟩
  · exact ⟨⟨PruneError.shapeUnpack, rfl⟩, rfl⟩
  · exact ⟨⟨PruneError.shapeUnpack, rfl⟩, rfl⟩
  · have hlt : d < K := by
      simpa [precondition_violated] using hviol
    have hguard : K = 0 ∨ d < K := Or.inr hlt
    constructor
    · refine ⟨PruneError.kmeansFit, ?_⟩
      simp [run_pruning_for_conv2d_layer, hguard]
    · simp [run_pruning_for_conv2d_layer, hguard]
  · exact ⟨⟨PruneError.shapeUnpack, rfl⟩, rfl⟩

/-- Witness for C2: a 2-D shape is rejected with the unpacking error,
independently of clustering and shuffling. -/
theorem kmeans_precondition_violation_rejected_witness :
    (∃ e, run_pruning_for_conv2d_layer [1, 2] 1 [] id = Except.error e) ∧
    run_pruning_for_conv2d_layer [1, 2] 1 [] id =
      run_pruning_for_conv2d_layer [1, 2] 1 [0] (fun l => l.reverse) :=
  kmeans_precondition_violation_rejected [1, 2] 1 [] [0] id
    (fun l => l.reverse) rfl

/-- Counterexample to claim C3 as stated: with target count 0 the call does
not return an empty prune list — `KMeans.fit` rejects a cluster count of 0,
so the call raises instead of returning. -/
theorem kmeans_zero_clusters_counterexample :
    run_pruning_for_conv2d_layer [1, 1, 1, 2] 0 [] id =
      Except.error PruneError.kmeansFit := rfl

/-- Claim C3 (amended): for every 4-D input tensor, when the target count is
0 the call raises the `KMeans.fit` validation error — regardless of the
tensor's content (the clustering outcome and the shuffle are arbitrary) — so
no prune list is returned and no job is submitted. -/
theorem kmeans_zero_clusters_errors (hh ww ic n : Nat) (closest : List Nat)
    (shuffled : List Nat → List Nat) :
    run_pruning_for_conv2d_layer [hh, ww, ic, n] 0 closest shuffled =
      Except.error PruneError.kmeansFit := by
  simp [run_pruning_for_conv2d_layer]

/-- Claim C4: the layer's weight tensor is unchanged by the call — the fuzz
is applied only to the flattened matrix value, never written back — and the
only side effect is that the single deferred `delete_channels` job (when the
call succeeds, nothing when it raises) is appended to the surgeon's job
list. -/
theorem kmeans_weights_readonly_single_job (s : PruneState) (K : Nat)
    (noise : Nat → Nat → Rat)
    (clusterClosest : List (List Rat) → Nat → List Nat)
    (shuffled : List Nat → List Nat) :
    (run_pruning_stateful s K noise clusterClosest shuffled).2.layerWeights =
      s.layerWeights ∧
    (run_pruning_stateful s K noise clusterClosest shuffled).2.jobs =
      s.jobs ++ submitted_jobs s.layerWeights K noise clusterClosest shuffled ∧
    (submitted_jobs s.layerWeights K noise clusterClosest shuffled).length ≤ 1 := by
  unfold run_pruning_stateful submitted_jobs
  rcases hres : run_pruning_for_conv2d_layer s.layerWeights.shape K
      (clusterClosest (apply_fuzz noise (flattenedFilterMatrix s.layerWeights)) K)
      shuffled with e | o <;>
    simp [hres]

/-- Claim C5: the final count-mismatch guard is unreachable — after the
truncation or shortfall-fill step the reconciled length always equals the
target, so every call ends in a successful outcome or in one of the three
other exits (shape unpacking, KMeans.fit validation, keep-list indexing);
the count-mismatch error is never raised. -/
theorem kmeans_count_mismatch_guard_unreachable (shape : List Nat) (K : Nat)
    (closest : List Nat) (shuffled : List Nat → List Nat) :
    (∃ o, run_pruning_for_conv2d_layer shape K closest shuffled =
      Except.ok o) ∨
    run_pruning_for_conv2d_layer shape K closest shuffled =
      Except.error PruneError.shapeUnpack ∨
    run_pruning_for_conv2d_layer shape K closest shuffled =
      Except.error PruneError.kmeansFit ∨
    run_pruning_for_conv2d_layer shape K closest shuffled =
      Except.error PruneError.keepIndex := by
  rcases shape with _ | ⟨a, _ | ⟨b, _ | ⟨c, _ | ⟨d, _ | ⟨e, rest⟩⟩⟩⟩⟩
  · exact Or.inr (Or.inl rfl)
  · exact Or.inr (Or.inl rfl)
  · exact Or.inr (Or.inl rfl)
  · exact Or.inr (Or.inl rfl)
  · by_cases hguard : K = 0 ∨ d < K
    · right; right; left
      simp [run_pruning_for_conv2d_layer, hguard]
    · rcases hrec : reconcile K (pruneInit d closest) (keepList closest) shuffled
        with e | pr
      · have he : e = PruneError.keepIndex := reconcile_error_elim hrec
        subst he
        right; right; right
        simp [run_pruning_for_conv2d_layer, hguard, hrec]
      · left
        have hL := reconcile_ok_length hrec
        refine ⟨⟨pr.1, pr.2, pr.1.length⟩, ?_⟩
        simp [run_pruning_for_conv2d_layer, hguard, hrec, final_check, hL]
  · exact Or.inr (Or.inl rfl)

/-- Claim C6: whenever the initial prune set has more than `K` elements, the
call truncates it to its first `K` entries in the stable ascending order,
succeeds with exactly that list, and the discarded indices (the entries
beyond the first `K`) are not pruned this round. -/
theorem kmeans_overfull_prune_truncated (hh ww ic n K : Nat)
    (closest : List Nat) (shuffled : List Nat → List Nat)
    (hK0 : 0 < K) (hgt : K < (pruneInit n closest).length) :
    run_pruning_for_conv2d_layer [hh, ww, ic, n] K closest shuffled =
      Except.ok ⟨(pruneInit n closest).take K, msg_too_many, K⟩ ∧
    ∀ d ∈ (pruneInit n closest).drop K, d ∉ (pruneInit n closest).take K := by
  have hlenle : (pruneInit n closest).length ≤ n := pruneInit_length_le n closest
  have hguard : ¬(K = 0 ∨ n < K) := by omega
  constructor
  · have htl : ((pruneInit n closest).take K).length = K := by
      simp [List.length_take]
      omega
    simp [run_pruning_for_conv2d_layer, hguard, reconcile, hgt, final_check, htl]
  · intro d hdrop htake
    have hnd := pruneInit_nodup n closest
    rw [← List.take_append_drop K (pruneInit n closest)] at hnd
    exact (List.nodup_append.mp hnd).2.2 htake hdrop

/-- Witness for C6: three channels, target 1, representative channel 0; the
initial prune list [1, 2] is truncated to [1], and the discarded index 2 is
not pruned. -/
theorem kmeans_overfull_prune_truncated_witness :
    run_pruning_for_conv2d_layer [1, 1, 1, 3] 1 [0] id =
      Except.ok ⟨(pruneInit 3 [0]).take 1, msg_too_many, 1⟩ ∧
    ∀ d ∈ (pruneInit 3 [0]).drop 1, d ∉ (pruneInit 3 [0]).take 1 :=
  kmeans_overfull_prune_truncated 1 1 1 3 1 [0] id (by decide) (by decide)

/-- Claim C7: whenever the initial prune set has fewer than `K` elements, the
shortfall is filled from the shuffled keep list: the call succeeds (it only
prints informational messages), every added index was a member of the initial
keep set, no index is added twice, and the final list has exactly `K`
elements. -/
theorem kmeans_shortfall_filled_from_keep (hh ww ic n K : Nat)
    (closest : List Nat) (shuffled : List Nat → List Nat)
    (hK0 : 0 < K) (hKn : K ≤ n)
    (hperm : (shuffled (keepList closest)).Perm (keepList closest))
    (hlt : (pruneInit n closest).length < K) :
    run_pruning_for_conv2d_layer [hh, ww, ic, n] K closest shuffled =
      Except.ok
        ⟨pruneInit n closest ++
            (shuffled (keepList closest)).take (K - (pruneInit n closest).length),
          msg_too_few (K - (pruneInit n closest).length), K⟩ ∧
    ((shuffled (keepList closest)).take
        (K - (pruneInit n closest).length)).length =
      K - (pruneInit n closest).length ∧
    (∀ x ∈ (shuffled (keepList closest)).take
        (K - (pruneInit n closest).length), x ∈ keepList closest) ∧
    ((shuffled (keepList closest)).take
        (K - (pruneInit n closest).length)).Nodup := by
  have hcover := le_pruneInit_length_add_keepList_length n closest
  have hshlen : (shuffled (keepList closest)).length = (keepList closest).length :=
    hperm.length_eq
  have hnolt : ¬((shuffled (keepList closest)).length <
      K - (pruneInit n closest).length) := by omega
  have hguard : ¬(K = 0 ∨ n < K) := by omega
  have hnogt : ¬(K < (pruneInit n closest).length) := by omega
  have htl : ((shuffled (keepList closest)).take
      (K - (pruneInit n closest).length)).length =
      K - (pruneInit n closest).length := by
    simp [List.length_take]
    omega
  refine ⟨?_, htl, ?_, ?_⟩
  · have hfl : (pruneInit n closest ++
        (shuffled (keepList closest)).take
          (K - (pruneInit n closest).length)).length = K := by
      simp [List.length_take]
      omega
    simp [run_pruning_for_conv2d_layer, hguard, reconcile, hnogt, hlt, hnolt,
      final_check, hfl]
  · intro x hx
    exact hperm.mem_iff.mp ((List.take_sublist _ _).subset hx)
  · exact (List.take_sublist _ _).nodup
      (hperm.nodup_iff.mpr (keepList_nodup closest))

/-- Witness for C7: two identical channels both representatives, target 2;
the empty initial prune list is filled with both keep indices. -/
theorem kmeans_shortfall_filled_from_keep_witness :
    run_pruning_for_conv2d_layer [1, 1, 1, 2] 2 [0, 1] id =
      Except.ok
        ⟨pruneInit 2 [0, 1] ++
            (id (keepList [0, 1])).take (2 - (pruneInit 2 [0, 1]).length),
          msg_too_few (2 - (pruneInit 2 [0, 1]).length), 2⟩ ∧
    ((id (keepList [0, 1])).take (2 - (pruneInit 2 [0, 1]).length)).length =
      2 - (pruneInit 2 [0, 1]).length ∧
    (∀ x ∈ (id (keepList [0, 1])).take (2 - (pruneInit 2 [0, 1]).length),
      x ∈ keepList [0, 1]) ∧
    ((id (keepList [0, 1])).take (2 - (pruneInit 2 [0, 1]).length)).Nodup :=
  kmeans_shortfall_filled_from_keep 1 1 1 2 2 [0, 1] id (by decide) (by decide)
    (List.Perm.refl _) (by decide)

/-- Claim C8: the call is deterministic under a fixed seed.  All randomness
(the fuzz noise field, the seeded k-means clustering, the keep-list shuffle)
is drawn from the numpy random source, represented here by the explicit
functions `noise`, `clusterClosest` and `shuffled`; two runs on states
holding the same weight tensor, with the same target count and the same
draws, return the same value and submit the same channel list, whatever else
(e.g. the surgeon's pending job list) differs between the states. -/
theorem kmeans_deterministic_under_fixed_seed (s₁ s₂ : PruneState) (K : Nat)
    (noise : Nat → Nat → Rat)
    (clusterClosest : List (List Rat) → Nat → List Nat)
    (shuffled : List Nat → List Nat)
    (hW : s₁.layerWeights = s₂.layerWeights) :
    (run_pruning_stateful s₁ K noise clusterClosest shuffled).1 =
      (run_pruning_stateful s₂ K noise clusterClosest shuffled).1 ∧
    submitted_jobs s₁.layerWeights K noise clusterClosest shuffled =
      submitted_jobs s₂.layerWeights K noise clusterClosest shuffled := by
  refine ⟨?_, by rw [hW]⟩
  unfold run_pruning_stateful
  rw [hW]
  rcases hres : run_pruning_for_conv2d_layer s₂.layerWeights.shape K
      (clusterClosest (apply_fuzz noise (flattenedFilterMatrix s₂.layerWeights)) K)
      shuffled with e | o <;>
    simp [hres]

/-- Witness for C8: two states with the same (1,1,1,2) weight tensor but
different pending job lists give the same returned value and the same
submitted channels. -/
theorem kmeans_deterministic_under_fixed_seed_witness :
    (run_pruning_stateful ⟨⟨[1, 1, 1, 2], [1, 2]⟩, []⟩ 1
        (fun _ _ => 0) (fun _ _ => [0]) id).1 =
      (run_pruning_stateful ⟨⟨[1, 1, 1, 2], [1, 2]⟩, [⟨"x", [0]⟩]⟩ 1
        (fun _ _ => 0) (fun _ _ => [0]) id).1 ∧
    submitted_jobs (PruneState.mk ⟨[1, 1, 1, 2], [1, 2]⟩ []).layerWeights 1
        (fun _ _ => 0) (fun _ _ => [0]) id =
      submitted_jobs
        (PruneState.mk ⟨[1, 1, 1, 2], [1, 2]⟩ [⟨"x", [0]⟩]).layerWeights 1
        (fun _ _ => 0) (fun _ _ => [0]) id :=
  kmeans_deterministic_under_fixed_seed ⟨⟨[1, 1, 1, 2], [1, 2]⟩, []⟩
    ⟨⟨[1, 1, 1, 2], [1, 2]⟩, [⟨"x", [0]⟩]⟩ 1 (fun _ _ => 0) (fun _ _ => [0])
    id rfl

/-- Claim C9: before count reconciliation the keep set and the prune set
partition the channel universe: their union is `{0, ..., n-1}` and their
intersection is empty.  The hypothesis records that the representative
indices returned by `pairwise_distances_argmin` are row indices of the
flattened matrix, i.e. lie below `n`. -/
theorem kmeans_keep_prune_partition (n : Nat) (closest : List Nat)
    (hclosest : ∀ i ∈ closest, i < n) :
    (keepList closest).toFinset ∪ (pruneInit n closest).toFinset =
      Finset.range n ∧
    Disjoint ((keepList closest).toFinset) ((pruneInit n closest).toFinset) := by
  constructor
  · ext x
    simp only [Finset.mem_union, List.mem_toFinset, mem_keepList, mem_pruneInit,
      Finset.mem_range]
    constructor
    · rintro (hx | ⟨hx, _⟩)
      · exact hclosest x hx
      · exact hx
    · intro hx
      by_cases hmem : x ∈ closest
      · exact Or.inl hmem
      · exact Or.inr ⟨hx, hmem⟩
  · rw [Finset.disjoint_left]
    intro a ha hb
    rw [List.mem_toFinset, mem_keepList] at ha
    rw [List.mem_toFinset] at hb
    exact (mem_pruneInit.mp hb).2 ha

/-- Witness for C9: with 3 channels and representatives {0, 2}, keep set
{0, 2} and prune set {1} partition {0, 1, 2}. -/
theorem kmeans_keep_prune_partition_witness :
    (keepList [0, 2]).toFinset ∪ (pruneInit 3 [0, 2]).toFinset =
      Finset.range 3 ∧
    Disjoint ((keepList [0, 2]).toFinset) ((pruneInit 3 [0, 2]).toFinset) :=
  kmeans_keep_prune_partition 3 [0, 2] (by decide)

/-- Claim C10: on every successful call the returned integer equals the
length of the channel list submitted in the deferred `delete_channels` job,
which in turn equals `nb_of_clusters`, the target count obtained from the
keep/prune-split helper. -/
theorem kmeans_return_equals_job_length (shape : List Nat) (K : Nat)
    (closest : List Nat) (shuffled : List Nat → List Nat) (o : PruneOutcome)
    (hrun : run_pruning_for_conv2d_layer shape K closest shuffled =
      Except.ok o) :
    o.ret = o.channels.length ∧ o.channels.length = K := by
  rcases shape with _ | ⟨a, _ | ⟨b, _ | ⟨c, _ | ⟨d, _ | ⟨e, rest⟩⟩⟩⟩⟩
  · exact Except.noConfusion hrun
  · exact Except.noConfusion hrun
  · exact Except.noConfusion hrun
  · exact Except.noConfusion hrun
  · obtain ⟨hK0, hKn, hrec, hlen, hret⟩ := run_ok_elim hrun
    exact ⟨hret, hlen⟩
  · exact Except.noConfusion hrun

/-- Witness for C10: the run on a (1,1,1,3) tensor with target 2 returns 2,
the length of the submitted list [1, 2], which equals the target. -/
theorem kmeans_return_equals_job_length_witness :
    (PruneOutcome.mk [1, 2] [] 2).ret =
      (PruneOutcome.mk [1, 2] [] 2).channels.length ∧
    (PruneOutcome.mk [1, 2] [] 2).channels.length = 2 :=
  kmeans_return_equals_job_length [1, 1, 1, 3] 2 [0] id
    (PruneOutcome.mk [1, 2] [] 2) rfl

end KMeansPruning
